import Mathlib

/-!
Shallow embedding of `mitsu-yuki/example-clean-architecture-go` (src/main.go).

The Go program is a small layered "clean architecture" example: a validated
`Todo` entity, an HTTP repository adapter, and thin use-case orchestrators.
Go's `(value, error)` pairs are embedded as `Except String _`; Go `int` is
embedded as `Int` and `string` as `String`. Network and JSON transport are
not modelled: the claims are about what happens after a response list has
been decoded, so the repository functions are embedded from the decoded
list onward, and abstract repositories are passed as functions.
-/

/-- The domain entity, from `type Todo struct` in src/main.go. -/
structure Todo where
  userId : Int
  id : Int
  title : String
  completed : Bool
deriving Repr, DecidableEq

/-- Constructor `NewTodo` from src/main.go: rejects `userId == 0`,
`id == 0` and empty `title`, in that order, otherwise stores the
given values unchanged. -/
def NewTodo (userId : Int) (id : Int) (title : String) (completed : Bool) :
    Except String Todo :=
  if userId = 0 then .error "userId must not be 0"
  else if id = 0 then .error "id must not be 0"
  else if title = "" then .error "title can not be empty"
  else .ok { userId := userId, id := id, title := title, completed := completed }

/-- Accessor `func (t Todo) UserId() int`. -/
def Todo.UserId (t : Todo) : Int := t.userId

/-- Accessor `func (t Todo) Id() int`. -/
def Todo.Id (t : Todo) : Int := t.id

/-- Accessor `func (t Todo) Title() string`. -/
def Todo.Title (t : Todo) : String := t.title

/-- Accessor `func (t Todo) Completed() bool`. -/
def Todo.Completed (t : Todo) : Bool := t.completed

/-- The wire shape `type HttpTodo struct` from src/main.go (the JSON
record decoded from the HTTP response). -/
structure HttpTodo where
  UserId : Int
  Id : Int
  Title : String
  Completed : Bool
deriving Repr, DecidableEq

/-- The decoding loop of `HttpTodoRepository.FindAll` (src/main.go lines
80-88): run each decoded record through `NewTodo`, returning the first
validation error with no entities, otherwise the accumulated list. -/
def HttpTodoRepository.findAllLoop : List HttpTodo → Except String (List Todo)
  | [] => .ok []
  | h :: hs =>
    match NewTodo h.UserId h.Id h.Title h.Completed with
    | .error e => .error e
    | .ok t =>
      match HttpTodoRepository.findAllLoop hs with
      | .error e => .error e
      | .ok ts => .ok (t :: ts)

/-- The status-code check of `HttpTodoRepository.Create` (src/main.go lines
136-139): success for `200 <= status < 300`, otherwise the generic
`"http error"`. -/
def HttpTodoRepository.createStatusResult (status : Int) : Except String Unit :=
  if 200 ≤ status ∧ status < 300 then .ok () else .error "http error"

/-- `FindAllTodoUseCase.Run` (src/main.go lines 148-162), from the point
where the repository result is available: on repository error propagate it,
otherwise re-run every entity through `NewTodo`, aborting on the first
failure. -/
def FindAllTodoUseCase.Run (repoResult : Except String (List Todo)) :
    Except String (List Todo) :=
  match repoResult with
  | .error e => .error e
  | .ok todos => go todos
where
  go : List Todo → Except String (List Todo)
  | [] => .ok []
  | t :: ts =>
    match NewTodo t.UserId t.Id t.Title t.Completed with
    | .error e => .error e
    | .ok v =>
      match go ts with
      | .error e => .error e
      | .ok vs => .ok (v :: vs)

/-- `FindByIdTodoUseCase.Run` (src/main.go lines 170-176): call the
repository's `FindById`, propagate its error, otherwise return its
entity unchanged. -/
def FindByIdTodoUseCase.Run (findById : Int → Except String Todo) (id : Int) :
    Except String Todo :=
  match findById id with
  | .error e => .error e
  | .ok t => .ok t

/-- `CreateAllTodoUseCase.Run` (src/main.go lines 193-200), instrumented
with the list of todos actually passed to the repository's `Create`:
iterate the sequence, calling `create` on each element, stopping at the
first error. Returns the call trace together with the overall result. -/
def CreateAllTodoUseCase.Run (create : Todo → Except String Unit) :
    List Todo → List Todo × Except String Unit
  | [] => ([], .ok ())
  | t :: ts =>
    match create t with
    | .error e => ([t], .error e)
    | .ok _ =>
      let rest := CreateAllTodoUseCase.Run create ts
      (t :: rest.1, rest.2)

/-- Modelled from the spec: the `User` entity of Application B (User
export) is absent from src/; the spec describes it as
`{id: integer >= 1, name: non-empty string, email: syntactically valid
email address, statusCode: integer (unconstrained)}`. -/
structure User where
  id : Int
  name : String
  email : String
  statusCode : Int
deriving Repr, DecidableEq

/-- Modelled from the spec: a syntactically valid email address, absent
from src/; the spec asks only that the email be "syntactically parseable
per standard email-address grammar", modelled here as a non-empty local
part and a non-empty domain part separated by a single `@`. -/
def validEmail (email : String) : Bool :=
  match email.toList.span (fun ch => ch ≠ '@') with
  | (localPart, _ :: domainPart) =>
    !localPart.isEmpty && !domainPart.isEmpty && !domainPart.contains '@'
  | (_, []) => false

/-- Modelled from the spec: the `User` constructor of Application B,
absent from src/; per the spec it validates `id >= 1`, name
non-emptiness and email syntax, or fails with a validation error naming
the field. -/
def NewUser (id : Int) (name : String) (email : String) (statusCode : Int) :
    Except String User :=
  if id < 1 then .error "id must be greater than or equal to 1"
  else if name = "" then .error "name can not be empty"
  else if !validEmail email then .error "email is invalid"
  else .ok { id := id, name := name, email := email, statusCode := statusCode }

/-- Modelled from the spec: `UserDTO`, absent from src/; a plain
structural mirror of `User`'s four fields with no invariants of its
own. -/
structure UserDTO where
  id : Int
  name : String
  email : String
  statusCode : Int
deriving Repr, DecidableEq

/-- Modelled from the spec: the pure entity-to-DTO mapping function of
Application B, absent from src/; copies the four fields. -/
def userToDTO (u : User) : UserDTO :=
  { id := u.id, name := u.name, email := u.email, statusCode := u.statusCode }

/-- Modelled from the spec: the DTO-to-entity mapping function of
Application B, absent from src/; validity is deferred to this
conversion, which runs the DTO's fields through the constructor. -/
def dtoToUser (d : UserDTO) : Except String User :=
  NewUser d.id d.name d.email d.statusCode

/-! ## Helper lemmas -/

/-- Inversion for a successful `NewTodo`: the inputs passed all three
checks and the entity stores them unchanged. -/
theorem NewTodo_ok_inv {u i : Int} {s : String} {c : Bool} {t : Todo}
    (h : NewTodo u i s c = .ok t) :
    u ≠ 0 ∧ i ≠ 0 ∧ s ≠ "" ∧ t = ⟨u, i, s, c⟩ := by
  unfold NewTodo at h
  split_ifs at h with h1 h2 h3
  exact ⟨h1, h2, h3, (Except.ok.inj h).symm⟩

/-- `NewTodo` succeeds whenever all three checks pass. -/
theorem NewTodo_ok_of {u i : Int} {s : String} (c : Bool)
    (h1 : u ≠ 0) (h2 : i ≠ 0) (h3 : s ≠ "") :
    NewTodo u i s c = .ok ⟨u, i, s, c⟩ := by
  unfold NewTodo
  rw [if_neg h1, if_neg h2, if_neg h3]

/-- `NewTodo` fails whenever some check fails. -/
theorem NewTodo_error_of {u i : Int} {s : String} (c : Bool)
    (h : u = 0 ∨ i = 0 ∨ s = "") :
    ∃ e, NewTodo u i s c = .error e := by
  unfold NewTodo
  rcases h with h | h | h
  · exact ⟨_, by rw [if_pos h]⟩
  · by_cases h1 : u = 0
    · exact ⟨_, by rw [if_pos h1]⟩
    · exact ⟨_, by rw [if_neg h1, if_pos h]⟩
  · by_cases h1 : u = 0
    · exact ⟨_, by rw [if_pos h1]⟩
    · by_cases h2 : i = 0
      · exact ⟨_, by rw [if_neg h1, if_pos h2]⟩
      · exact ⟨_, by rw [if_neg h1, if_neg h2, if_pos h]⟩

/-! ## Claims -/

/-- C1: `NewTodo` fails exactly when `userId = 0` or `id = 0` or
`title = ""`; on every other input it succeeds and the accessors
`UserId`, `Id`, `Title`, `Completed` return exactly the values passed
in. -/
theorem newTodo_fails_iff_zero_and_accessors_faithful
    (u i : Int) (s : String) (c : Bool) :
    ((∃ e, NewTodo u i s c = .error e) ↔ (u = 0 ∨ i = 0 ∨ s = "")) ∧
    (¬(u = 0 ∨ i = 0 ∨ s = "") →
      ∃ t, NewTodo u i s c = .ok t ∧
        t.UserId = u ∧ t.Id = i ∧ t.Title = s ∧ t.Completed = c) := by
  constructor
  · constructor
    · rintro ⟨e, he⟩
      by_contra hcon
      push_neg at hcon
      obtain ⟨h1, h2, h3⟩ := hcon
      rw [NewTodo_ok_of c h1 h2 h3] at he
      exact Except.noConfusion he
    · exact NewTodo_error_of c
  · intro h
    push_neg at h
    obtain ⟨h1, h2, h3⟩ := h
    exact ⟨⟨u, i, s, c⟩, NewTodo_ok_of c h1 h2 h3, rfl, rfl, rfl, rfl⟩

/-- C1 witness: instantiation at concrete inputs. -/
theorem newTodo_fails_iff_zero_and_accessors_faithful_witness :
    ∃ t, NewTodo 5 7 "buy milk" true = .ok t ∧
      t.UserId = 5 ∧ t.Id = 7 ∧ t.Title = "buy milk" ∧ t.Completed = true :=
  (newTodo_fails_iff_zero_and_accessors_faithful 5 7 "buy milk" true).2 (by decide)

/-- C2 counterexample: a negative `userId` passes validation, so a
constructed `Todo` can hold a negative `userId`. -/
theorem newTodo_accepts_negative_userId :
    (-1 : Int) < 0 ∧
    NewTodo (-1) 1 "x" false = .ok ⟨-1, 1, "x", false⟩ :=
  ⟨by decide, rfl⟩

/-- C2 (amended): `NewTodo` rejects only a zero `userId` or `id`;
every constructed `Todo` has non-zero (but possibly negative) `userId`
and `id`. -/
theorem newTodo_nonzero_invariant (u i : Int) (s : String) (c : Bool)
    (t : Todo) (h : NewTodo u i s c = .ok t) :
    t.userId ≠ 0 ∧ t.id ≠ 0 := by
  obtain ⟨h1, h2, _, rfl⟩ := NewTodo_ok_inv h
  exact ⟨h1, h2⟩

/-- C2 witness: instantiation at concrete inputs. -/
theorem newTodo_nonzero_invariant_witness :
    (Todo.mk 3 4 "y" true).userId ≠ 0 ∧ (Todo.mk 3 4 "y" true).id ≠ 0 :=
  newTodo_nonzero_invariant 3 4 "y" true ⟨3, 4, "y", true⟩ rfl

/-- C5: the status check of `HttpTodoRepository.Create` reports success
exactly for status codes 200-299 and returns the generic `"http error"`
for every other status. -/
theorem create_success_iff_status_2xx (s : Int) :
    (HttpTodoRepository.createStatusResult s = .ok () ↔ (200 ≤ s ∧ s ≤ 299)) ∧
    (¬(200 ≤ s ∧ s ≤ 299) →
      HttpTodoRepository.createStatusResult s = .error "http error") := by
  unfold HttpTodoRepository.createStatusResult
  have hiff : (200 ≤ s ∧ s < 300) ↔ (200 ≤ s ∧ s ≤ 299) := by omega
  constructor
  · by_cases h : 200 ≤ s ∧ s < 300
    · rw [if_pos h]
      simp [hiff.mp h]
    · rw [if_neg h]
      constructor
      · intro he
        exact Except.noConfusion he
      · intro hs
        exact absurd (hiff.mpr hs) h
  · intro hs
    rw [if_neg (fun hc => hs (hiff.mp hc))]

/-- C5 witness: 200 succeeds, 404 and 500 both fail generically. -/
theorem create_success_iff_status_2xx_witness :
    HttpTodoRepository.createStatusResult 200 = .ok () ∧
    HttpTodoRepository.createStatusResult 404 = .error "http error" ∧
    HttpTodoRepository.createStatusResult 500 = .error "http error" :=
  ⟨(create_success_iff_status_2xx 200).1.mpr (by decide),
   (create_success_iff_status_2xx 404).2 (by decide),
   (create_success_iff_status_2xx 500).2 (by decide)⟩

/-- C9: every `Todo` produced by `NewTodo` satisfies the validity
predicate `userId ≠ 0 ∧ id ≠ 0 ∧ title ≠ ""`, and each accessor method
returns the stored field unchanged (the embedding has no mutating
operation on `Todo`, matching the by-value receivers and absence of
setters in the source). -/
theorem todo_validity_invariant (u i : Int) (s : String) (c : Bool)
    (t : Todo) (h : NewTodo u i s c = .ok t) :
    (t.userId ≠ 0 ∧ t.id ≠ 0 ∧ t.title ≠ "") ∧
    t.UserId = t.userId ∧ t.Id = t.id ∧
    t.Title = t.title ∧ t.Completed = t.completed := by
  obtain ⟨h1, h2, h3, rfl⟩ := NewTodo_ok_inv h
  exact ⟨⟨h1, h2, h3⟩, rfl, rfl, rfl, rfl⟩

/-- C9 witness: instantiation at concrete inputs. -/
theorem todo_validity_invariant_witness :
    ((Todo.mk 1 1 "a" false).userId ≠ 0 ∧ (Todo.mk 1 1 "a" false).id ≠ 0 ∧
      (Todo.mk 1 1 "a" false).title ≠ "") ∧
    (Todo.mk 1 1 "a" false).UserId = (Todo.mk 1 1 "a" false).userId ∧
    (Todo.mk 1 1 "a" false).Id = (Todo.mk 1 1 "a" false).id ∧
    (Todo.mk 1 1 "a" false).Title = (Todo.mk 1 1 "a" false).title ∧
    (Todo.mk 1 1 "a" false).Completed = (Todo.mk 1 1 "a" false).completed :=
  todo_validity_invariant 1 1 "a" false ⟨1, 1, "a", false⟩ rfl

/-- C10: `FindByIdTodoUseCase.Run` is a pure pass-through: it returns
exactly the repository result, with no revalidation. -/
theorem findById_run_pass_through
    (findById : Int → Except String Todo) (id : Int) :
    FindByIdTodoUseCase.Run findById id = findById id := by
  unfold FindByIdTodoUseCase.Run
  cases findById id <;> rfl

/-- C3: if any decoded record in the response list fails `Todo`
validation, the `FindAll` decoding loop returns a validation error and
no entities at all. -/
theorem findAll_fails_entirely_on_any_invalid (hs : List HttpTodo)
    (h : ∃ x ∈ hs, x.UserId = 0 ∨ x.Id = 0 ∨ x.Title = "") :
    ∃ e, HttpTodoRepository.findAllLoop hs = .error e := by
  induction hs with
  | nil => simp at h
  | cons a as ih =>
    obtain ⟨x, hx, hbad⟩ := h
    rcases List.mem_cons.mp hx with rfl | hmem
    · obtain ⟨e, he⟩ := NewTodo_error_of x.Completed hbad
      exact ⟨e, by unfold HttpTodoRepository.findAllLoop; rw [he]⟩
    · cases hNew : NewTodo a.UserId a.Id a.Title a.Completed with
      | error e =>
        exact ⟨e, by unfold HttpTodoRepository.findAllLoop; rw [hNew]⟩
      | ok t =>
        obtain ⟨e, he⟩ := ih ⟨x, hmem, hbad⟩
        exact ⟨e, by unfold HttpTodoRepository.findAllLoop; rw [hNew, he]⟩

/-- C3 witness: a list with one well-formed record and one with an empty
title decodes to an error. -/
theorem findAll_fails_entirely_on_any_invalid_witness :
    ∃ e, HttpTodoRepository.findAllLoop
      [⟨1, 1, "a", false⟩, ⟨1, 2, "", true⟩] = .error e :=
  findAll_fails_entirely_on_any_invalid
    [⟨1, 1, "a", false⟩, ⟨1, 2, "", true⟩]
    ⟨⟨1, 2, "", true⟩, by decide, by decide⟩

/-- C4: when every decoded record passes validation, the `FindAll`
decoding loop succeeds and returns one entity per record, carrying that
record's fields, in source order (so exactly N entities for N
records). -/
theorem findAll_returns_all_in_order (hs : List HttpTodo)
    (h : ∀ x ∈ hs, x.UserId ≠ 0 ∧ x.Id ≠ 0 ∧ x.Title ≠ "") :
    HttpTodoRepository.findAllLoop hs =
      .ok (hs.map fun x => Todo.mk x.UserId x.Id x.Title x.Completed) ∧
    (hs.map fun x => Todo.mk x.UserId x.Id x.Title x.Completed).length =
      hs.length := by
  refine ⟨?_, by simp⟩
  induction hs with
  | nil => rfl
  | cons a as ih =>
    obtain ⟨h1, h2, h3⟩ := h a (List.mem_cons_self a as)
    unfold HttpTodoRepository.findAllLoop
    rw [NewTodo_ok_of a.Completed h1 h2 h3,
        ih (fun x hx => h x (List.mem_cons_of_mem a hx))]
    rfl

/-- C4 witness: two well-formed records decode to two entities in
order. -/
theorem findAll_returns_all_in_order_witness :
    HttpTodoRepository.findAllLoop [⟨1, 1, "a", false⟩, ⟨2, 2, "b", true⟩] =
      .ok [Todo.mk 1 1 "a" false, Todo.mk 2 2 "b" true] ∧
    ([Todo.mk 1 1 "a" false, Todo.mk 2 2 "b" true]).length =
      ([(⟨1, 1, "a", false⟩ : HttpTodo), ⟨2, 2, "b", true⟩]).length :=
  findAll_returns_all_in_order [⟨1, 1, "a", false⟩, ⟨2, 2, "b", true⟩]
    (by decide)

/-- The revalidation pass of `FindAllTodoUseCase.Run` is the identity on
lists of field-valid todos. -/
theorem findAllUC_go_id (todos : List Todo)
    (h : ∀ t ∈ todos, t.userId ≠ 0 ∧ t.id ≠ 0 ∧ t.title ≠ "") :
    FindAllTodoUseCase.Run.go todos = .ok todos := by
  induction todos with
  | nil => rfl
  | cons a as ih =>
    obtain ⟨h1, h2, h3⟩ := h a (List.mem_cons_self a as)
    unfold FindAllTodoUseCase.Run.go
    have hNew : NewTodo a.UserId a.Id a.Title a.Completed = .ok a :=
      NewTodo_ok_of a.completed h1 h2 h3
    rw [hNew, ih (fun t ht => h t (List.mem_cons_of_mem a ht))]

/-- C7: the revalidation inside `FindAllTodoUseCase.Run` is redundant:
whenever the repository succeeds with a list of todos each of which was
validly constructed through `NewTodo`, `Run` succeeds and returns the
repository's list unchanged (field-wise equal). -/
theorem findAllUC_revalidation_redundant (todos : List Todo)
    (h : ∀ t ∈ todos, ∃ u i s c, NewTodo u i s c = .ok t) :
    FindAllTodoUseCase.Run (.ok todos) = .ok todos := by
  have hv : ∀ t ∈ todos, t.userId ≠ 0 ∧ t.id ≠ 0 ∧ t.title ≠ "" := by
    intro t ht
    obtain ⟨u, i, s, c, hc⟩ := h t ht
    obtain ⟨h1, h2, h3, rfl⟩ := NewTodo_ok_inv hc
    exact ⟨h1, h2, h3⟩
  show FindAllTodoUseCase.Run.go todos = .ok todos
  exact findAllUC_go_id todos hv

/-- C7 witness: a singleton list of a validly constructed todo passes
through `Run` unchanged. -/
theorem findAllUC_revalidation_redundant_witness :
    FindAllTodoUseCase.Run (.ok [⟨1, 1, "a", true⟩]) = .ok [⟨1, 1, "a", true⟩] :=
  findAllUC_revalidation_redundant [⟨1, 1, "a", true⟩] (by
    intro t ht
    rw [List.mem_singleton] at ht
    subst ht
    exact ⟨1, 1, "a", true, rfl⟩)

/-- Inversion for a successful `NewUser`: the inputs passed all three
checks and the entity stores them unchanged. -/
theorem NewUser_ok_inv {i : Int} {n e : String} {sc : Int} {u : User}
    (h : NewUser i n e sc = .ok u) :
    ¬i < 1 ∧ n ≠ "" ∧ validEmail e = true ∧ u = ⟨i, n, e, sc⟩ := by
  unfold NewUser at h
  split_ifs at h with h1 h2 h3
  refine ⟨h1, h2, ?_, (Except.ok.inj h).symm⟩
  simpa using h3

/-- C8: for every validly constructed `User`, converting it to a
`UserDTO` and back reproduces identical values in all four fields. -/
theorem user_dto_roundtrip (i : Int) (n e : String) (sc : Int) (u : User)
    (h : NewUser i n e sc = .ok u) :
    dtoToUser (userToDTO u) = .ok u ∧
    (userToDTO u).id = u.id ∧ (userToDTO u).name = u.name ∧
    (userToDTO u).email = u.email ∧ (userToDTO u).statusCode = u.statusCode := by
  obtain ⟨h1, h2, h3, rfl⟩ := NewUser_ok_inv h
  refine ⟨?_, rfl, rfl, rfl, rfl⟩
  show NewUser i n e sc = _
  unfold NewUser
  rw [if_neg h1, if_neg h2, if_neg (by simp [h3])]

/-- C8 witness: a concrete validly constructed user round-trips through
the DTO. -/
theorem user_dto_roundtrip_witness :
    dtoToUser (userToDTO ⟨1, "alice", "a@b", 0⟩) =
      .ok ⟨1, "alice", "a@b", 0⟩ ∧
    (userToDTO ⟨1, "alice", "a@b", 0⟩).id = (1 : Int) ∧
    (userToDTO ⟨1, "alice", "a@b", 0⟩).name = "alice" ∧
    (userToDTO ⟨1, "alice", "a@b", 0⟩).email = "a@b" ∧
    (userToDTO ⟨1, "alice", "a@b", 0⟩).statusCode = (0 : Int) :=
  user_dto_roundtrip 1 "alice" "a@b" 0 ⟨1, "alice", "a@b", 0⟩ rfl

/-- C6: `CreateAllTodoUseCase.Run` calls the repository's `Create` once
per todo in order; if every call succeeds it returns success, and if the
first failing call is at (zero-based) position k it returns that error
after having called `Create` on exactly the first k+1 todos, never
attempting the todos after the failure. -/
theorem createAll_stops_at_first_failure
    (create : Todo → Except String Unit) (todos : List Todo) :
    ((∀ t ∈ todos, create t = .ok ()) →
      CreateAllTodoUseCase.Run create todos = (todos, .ok ())) ∧
    (∀ (k : Nat) (hk : k < todos.length) (e : String),
      (∀ (j : Nat) (hj : j < todos.length), j < k →
        create (todos.get ⟨j, hj⟩) = .ok ()) →
      create (todos.get ⟨k, hk⟩) = .error e →
      CreateAllTodoUseCase.Run create todos =
        (todos.take (k + 1), .error e)) := by
  induction todos with
  | nil =>
    refine ⟨fun _ => rfl, ?_⟩
    intro k hk
    exact absurd hk (by simp)
  | cons a as ih =>
    constructor
    · intro h
      have ha := h a (List.mem_cons_self a as)
      have htail := ih.1 (fun t ht => h t (List.mem_cons_of_mem a ht))
      unfold CreateAllTodoUseCase.Run
      rw [ha, htail]
    · intro k hk e hok hfail
      cases k with
      | zero =>
        have ha : create a = .error e := hfail
        unfold CreateAllTodoUseCase.Run
        rw [ha]
        rfl
      | succ k =>
        have ha : create a = .ok () := hok 0 (Nat.succ_pos _) (Nat.succ_pos k)
        have hk' : k < as.length := Nat.lt_of_succ_lt_succ hk
        have hok' : ∀ (j : Nat) (hj : j < as.length), j < k →
            create (as.get ⟨j, hj⟩) = .ok () := by
          intro j hj hjk
          exact hok (j + 1) (Nat.succ_lt_succ hj) (Nat.succ_lt_succ hjk)
        have hfail' : create (as.get ⟨k, hk'⟩) = .error e := hfail
        have htail := ih.2 k hk' e hok' hfail'
        unfold CreateAllTodoUseCase.Run
        rw [ha, htail]
        rfl

/-- C6 witness: over three todos where the repository fails on the
second, `Run` calls `Create` on exactly the first two, in order, and
returns the failure. -/
theorem createAll_stops_at_first_failure_witness :
    CreateAllTodoUseCase.Run
      (fun t => if t.id = 2 then .error "boom" else .ok ())
      [⟨1, 1, "a", false⟩, ⟨1, 2, "b", false⟩, ⟨1, 3, "c", false⟩] =
      ([⟨1, 1, "a", false⟩, ⟨1, 2, "b", false⟩], .error "boom") :=
  (createAll_stops_at_first_failure
      (fun t => if t.id = 2 then .error "boom" else .ok ())
      [⟨1, 1, "a", false⟩, ⟨1, 2, "b", false⟩, ⟨1, 3, "c", false⟩]).2
    1 (by decide) "boom"
    (by
      intro j hj hjk
      have hj0 : j = 0 := by omega
      subst hj0
      rfl)
    rfl
